import Mathlib

/-!
Verification development for the Gemini-Image-Fusion repository.

The repository is a browser app whose core logic is:
  * `src/utils/fileUtils.ts` — `fileToBase64` (data-URL splitting) and
    `getMimeType` (extension-based MIME detection);
  * `src/services/geminiService.ts` — `editImageWithGemini` (request
    construction, response extraction, uniform error wrapping);
  * the App component — `handleFiles`, `handleRemoveImage`, `handleSubmit`,
    `clearState` (UI session state and submission pipeline).

We embed these shallowly: JavaScript strings become `List Char` or `String`,
byte buffers become `List Nat` (each `< 256`), thrown exceptions become
`Except String`, the remote model call becomes an explicit function
parameter, and `String.split(sep)` for a one-character separator becomes
`splitChar`.
-/

namespace GIF

/-- Predicate `listPre a b` : `a` is a leading segment of `b` (substring-at-start). -/
def listPre {α : Type} (a b : List α) : Prop := ∃ t, a ++ t = b

/-- Predicate `listSub a b` : `a` occurs contiguously inside `b` (substring). -/
def listSub {α : Type} (a b : List α) : Prop := ∃ s t, s ++ a ++ t = b

/-- Embedding of JavaScript `str.split(sep)` for a single-character
separator, over the character list of the string.  JS `split` always
returns a non-empty array; splitting the empty string gives `[""]`. -/
def splitChar (sep : Char) : List Char → List (List Char)
  | [] => [[]]
  | c :: rest =>
    let r := splitChar sep rest
    if c = sep then [] :: r else (c :: r.headD []) :: r.tail

/-- The `switch` statement of `getMimeType` in `src/utils/fileUtils.ts`,
on the lower-cased extension. -/
def mimeSwitch (ext : List Char) : Option String :=
  if ext = "jpg".data ∨ ext = "jpeg".data then some "image/jpeg"
  else if ext = "png".data then some "image/png"
  else if ext = "webp".data then some "image/webp"
  else none

/-- Embedding of `getMimeType` from `src/utils/fileUtils.ts`:
`filename.split('.').pop()?.toLowerCase()` switched over the known
extensions, `null` (here `none`) otherwise.  JS `pop()` on the result of
`split` is its last element; `split` never returns an empty array. -/
def getMimeType (filename : String) : Option String :=
  match (splitChar '.' filename.data).getLast? with
  | none => none
  | some ext => mimeSwitch (ext.map Char.toLower)

/-- The standard base64 alphabet, index `0`–`63` to character. -/
def b64Char (i : Nat) : Char :=
  if i < 26 then Char.ofNat (65 + i)
  else if i < 52 then Char.ofNat (97 + (i - 26))
  else if i < 62 then Char.ofNat (48 + (i - 52))
  else if i = 62 then '+' else '/'

/-- Inverse of `b64Char` on the alphabet. -/
def b64Index (c : Char) : Nat :=
  if 'A' ≤ c ∧ c ≤ 'Z' then c.toNat - 65
  else if 'a' ≤ c ∧ c ≤ 'z' then c.toNat - 97 + 26
  else if '0' ≤ c ∧ c ≤ '9' then c.toNat - 48 + 52
  else if c = '+' then 62 else 63

/-- Standard base64 encoding of a byte sequence (bytes as `Nat < 256`),
three bytes to four characters, with `=` padding; this is the encoding
`FileReader.readAsDataURL` applies to the file content. -/
def b64Encode : List Nat → List Char
  | [] => []
  | [b1] => [b64Char (b1 / 4), b64Char (b1 % 4 * 16), '=', '=']
  | [b1, b2] =>
    [b64Char (b1 / 4), b64Char (b1 % 4 * 16 + b2 / 16), b64Char (b2 % 16 * 4), '=']
  | b1 :: b2 :: b3 :: rest =>
    b64Char (b1 / 4) :: b64Char (b1 % 4 * 16 + b2 / 16) ::
    b64Char (b2 % 16 * 4 + b3 / 64) :: b64Char (b3 % 64) :: b64Encode rest

/-- Standard base64 decoding, four characters to three bytes, honouring
`=` padding. -/
def b64Decode : List Char → List Nat
  | c1 :: c2 :: c3 :: c4 :: rest =>
    if c3 = '=' then [b64Index c1 * 4 + b64Index c2 / 16]
    else if c4 = '=' then
      [b64Index c1 * 4 + b64Index c2 / 16, b64Index c2 % 16 * 16 + b64Index c3 / 4]
    else
      (b64Index c1 * 4 + b64Index c2 / 16) ::
      (b64Index c2 % 16 * 16 + b64Index c3 / 4) ::
      (b64Index c3 % 4 * 64 + b64Index c4) :: b64Decode rest
  | _ => []

/-- The data URL produced by `FileReader.readAsDataURL` on a file with
MIME type `mime` and raw content `bytes`:
`"data:<mime>;base64,<payload>"`. -/
def dataURL (mime : List Char) (bytes : List Nat) : List Char :=
  "data:".data ++ mime ++ ";base64,".data ++ b64Encode bytes

/-- Embedding of `fileToBase64` from `src/utils/fileUtils.ts`: read the file as a data
URL and keep `result.split(',')[1]` — the part after the first comma. -/
def fileToBase64 (mime : List Char) (bytes : List Nat) : List Char :=
  (splitChar ',' (dataURL mime bytes)).getD 1 []

/-- The `ImageData` interface of `src/services/geminiService.ts`: a base64 payload
plus its MIME type. -/
structure ImageData where
  data : String
  mimeType : String
deriving DecidableEq, Repr

/-- A content part of the outgoing request: either inline image data or
text. -/
inductive ReqPart where
  | inl (data : String) (mimeType : String)
  | txt (s : String)
deriving DecidableEq, Repr

/-- The face-preservation wrapper built around the user prompt in
`editImageWithGemini` (`fullPrompt`). -/
def fullPrompt (prompt : String) : String :=
  "You are an expert photo editor. Your task is to take the provided images of people and place them into a new scene described by the user. It is absolutely crucial that you preserve the faces of the individuals from the original photos. Do not alter their facial features, expressions, or identities in any way. The faces in the generated image must look exactly like the faces in the uploaded photos. Here is the user's request for the scene: '"
    ++ prompt ++ "'"

/-- The request sent by `ai.models.generateContent`: model identifier,
ordered content parts, and the requested response modalities. -/
structure GenRequest where
  model : String
  parts : List ReqPart
  responseModalities : List String
deriving DecidableEq, Repr

/-- The request `editImageWithGemini` builds: one inline part per image,
in order, then one text part holding the wrapped prompt. -/
def buildRequest (prompt : String) (images : List ImageData) : GenRequest :=
  { model := "gemini-2.5-flash-image"
    parts := images.map (fun image => ReqPart.inl image.data image.mimeType)
      ++ [ReqPart.txt (fullPrompt prompt)]
    responseModalities := ["IMAGE"] }

/-- One safety rating of the response: a category and a probability. -/
structure SafetyRating where
  category : String
  probability : String
deriving DecidableEq, Repr

/-- A content part of the response; the fields mirror the optional
`inlineData` / `text` fields of the API part object. -/
structure RespPart where
  inlineData : Option ImageData
  text : Option String
deriving DecidableEq, Repr

/-- The `candidate.content` object, with its optional `parts` array. -/
structure Content where
  parts : Option (List RespPart)
deriving DecidableEq, Repr

/-- One response candidate, with optional `content` and optional
`safetyRatings`. -/
structure Candidate where
  content : Option Content
  safetyRatings : Option (List SafetyRating)
deriving DecidableEq, Repr

/-- The remote response, with its optional `candidates` array. -/
structure GenResponse where
  candidates : Option (List Candidate)
deriving DecidableEq, Repr

/-- Embedding of `response.candidates?.[0]` — optional chaining into the first
candidate. -/
def firstCandidate (r : GenResponse) : Option Candidate :=
  r.candidates.bind List.head?

/-- Embedding of `response.candidates?.[0]?.content?.parts?.find(part => part.inlineData)`
from `src/services/geminiService.ts`. -/
def findImagePart (r : GenResponse) : Option RespPart :=
  (((firstCandidate r).bind Candidate.content).bind Content.parts).bind
    (List.find? (fun p => p.inlineData.isSome))

/-- JS `Array.join(', ')` over a list of strings. -/
def joinCommaSpace : List String → String
  | [] => ""
  | [s] => s
  | s :: rest => s ++ ", " ++ joinCommaSpace rest

/-- The rendering of one safety rating inside the no-image message:
`` `${r.category} (${r.probability})` ``. -/
def ratingStr (r : SafetyRating) : String :=
  r.category ++ " (" ++ r.probability ++ ")"

/-- The failure message built when no image part is found: the generic
text, extended with the joined safety ratings when
`candidates?.[0]?.safetyRatings` is present. -/
def noImageMessage (r : GenResponse) : String :=
  let base := "No image was generated."
  match (firstCandidate r).bind Candidate.safetyRatings with
  | some ratings =>
    base ++ " The model's response may have been blocked due to: "
      ++ joinCommaSpace (ratings.map ratingStr)
  | none => base

/-- Embedding of `editImageWithGemini` from `src/services/geminiService.ts`.  The
remote call is an explicit parameter `remote`; a thrown exception is an
`Except.error` carrying the exception's message.  The whole `try` body —
including the internally thrown no-image error — is caught and re-thrown
as `` `Failed to generate image: ${message}` ``. -/
def editImageWithGemini (prompt : String) (images : List ImageData)
    (remote : GenRequest → Except String GenResponse) : Except String String :=
  let tryBody : Except String String :=
    match remote (buildRequest prompt images) with
    | Except.error e => Except.error e
    | Except.ok response =>
      match (findImagePart response).bind RespPart.inlineData with
      | some d => Except.ok d.data
      | none => Except.error (noImageMessage response)
  match tryBody with
  | Except.ok d => Except.ok d
  | Except.error e => Except.error ("Failed to generate image: " ++ e)

/-- A selected file as the App component sees it: `name`, browser-supplied
MIME `type`, and raw byte content. -/
structure FileRec where
  name : String
  type : String
  content : List Nat
deriving DecidableEq, Repr

/-- The MIME resolution in `handleSubmit`:
`const mimeType = getMimeType(file.name) || file.type;` followed by
`if (!mimeType) throw new Error(...)`.  `getMimeType` never returns an
empty string, so JS `||` coincides with `Option.getD`. -/
def resolveMime (name ftype : String) : Except String String :=
  let mimeType := (getMimeType name).getD ftype
  if mimeType = "" then
    Except.error ("Could not determine image MIME type for " ++ name ++ ".")
  else Except.ok mimeType

/-- Encoding of one file inside `handleSubmit`: base64 content (via the
data-URL path of `fileToBase64`, which uses the file's own `type` as the
data-URL media type) paired with the resolved MIME type. -/
def encodeFile (f : FileRec) : Except String ImageData :=
  match resolveMime f.name f.type with
  | Except.error e => Except.error e
  | Except.ok mt => Except.ok ⟨⟨fileToBase64 f.type.data f.content⟩, mt⟩

/-- The `Promise.all` over the per-file encodes, in list order; the first
failing file's error is surfaced. -/
def encodeAll : List FileRec → Except String (List ImageData)
  | [] => Except.ok []
  | f :: fs =>
    match encodeFile f with
    | Except.error e => Except.error e
    | Except.ok d =>
      match encodeAll fs with
      | Except.error e => Except.error e
      | Except.ok ds => Except.ok (d :: ds)

/-- Outcome of one `handleSubmit` run: the early validation error (no
remote call), a caught failure rendered into the error state, or the
success state holding the generated data URL. -/
inductive SubmitOutcome where
  | validationError (msg : String)
  | failure (msg : String)
  | success (url : String)
deriving DecidableEq, Repr

/-- Embedding of `handleSubmit` from the App component: validate that files and prompt
are non-empty, encode all files, call `editImageWithGemini`, and render
the outcome. -/
def handleSubmit (files : List FileRec) (prompt : String)
    (remote : GenRequest → Except String GenResponse) : SubmitOutcome :=
  if files.length = 0 ∨ prompt = "" then
    SubmitOutcome.validationError "Please select at least one image and enter a prompt."
  else
    match encodeAll files with
    | Except.error e => SubmitOutcome.failure e
    | Except.ok imageDatas =>
      match editImageWithGemini prompt imageDatas remote with
      | Except.error e => SubmitOutcome.failure e
      | Except.ok b64 => SubmitOutcome.success ("data:image/png;base64," ++ b64)

/-- The part of the App state the list invariant concerns: the selected
files and their preview URLs. -/
structure Session (F U : Type) where
  files : List F
  urls : List U

/-- Embedding of `array.filter((_, index) => index !== i)` — keep the
elements whose position differs from `i`; `j` is the position of the
list's head. -/
def filterIdxNe {α : Type} (i : Nat) : Nat → List α → List α
  | _, [] => []
  | j, x :: xs =>
    if j = i then filterIdxNe i (j + 1) xs else x :: filterIdxNe i (j + 1) xs

/-- The initial App state: no files, no preview URLs. -/
def initialSession {F U : Type} : Session F U := ⟨[], []⟩

/-- Embedding of `handleFiles` from the App component: keep the incoming files whose
type starts with `image/` (predicate `isImage`), return unchanged when
none survive, otherwise append the new files and their fresh object URLs
(`u` embeds `URL.createObjectURL`). -/
def handleFiles {F U : Type} (u : F → U) (isImage : F → Bool)
    (st : Session F U) (incoming : List F) : Session F U :=
  let newImageFiles := incoming.filter isImage
  if newImageFiles.isEmpty then st
  else ⟨st.files ++ newImageFiles, st.urls ++ newImageFiles.map u⟩

/-- Embedding of `handleRemoveImage` from the App component: drop index `i` from both
lists. -/
def handleRemoveImage {F U : Type} (st : Session F U) (i : Nat) : Session F U :=
  ⟨filterIdxNe i 0 st.files, filterIdxNe i 0 st.urls⟩

/-- Embedding of `clearState` from the App component: both lists emptied. -/
def clearState {F U : Type} : Session F U := ⟨[], []⟩

/-- The session invariant: the preview URLs are exactly the object URLs
of the selected files, index by index (hence the lists have equal
length). -/
def sessionInv {F U : Type} (u : F → U) (st : Session F U) : Prop :=
  st.urls = st.files.map u

/-- A sample inline-image payload for concrete response examples. -/
def exImage : ImageData := ⟨"IMGDATA", "image/png"⟩

/-- A concrete response whose first candidate carries exactly one inline
image part. -/
def respWithImage : GenResponse :=
  ⟨some [⟨some ⟨some [⟨some exImage, none⟩]⟩, none⟩]⟩

/-- A concrete response with no image part and one safety rating. -/
def respBlocked : GenResponse :=
  ⟨some [⟨some ⟨some []⟩, some [⟨"VIOLENCE", "LOW"⟩]⟩]⟩

/-- A concrete remote stub that always fails with a network-style error. -/
def remoteDown : GenRequest → Except String GenResponse :=
  fun _ => Except.error "net"

/- ------------------------------------------------------------------ -/
/- Helper lemmas.                                                      -/
/- ------------------------------------------------------------------ -/

theorem splitChar_ne_nil (sep : Char) (l : List Char) : splitChar sep l ≠ [] := by
  induction l with
  | nil => simp [splitChar]
  | cons c rest ih =>
    simp only [splitChar]
    split <;> simp

theorem splitChar_not_mem (sep : Char) (l : List Char) (h : sep ∉ l) :
    splitChar sep l = [l] := by
  induction l with
  | nil => rfl
  | cons c rest ih =>
    have hc : c ≠ sep := fun e => h (e ▸ List.mem_cons_self c rest)
    have hr : sep ∉ rest := fun m => h (List.mem_cons_of_mem _ m)
    simp only [splitChar, if_neg hc, ih hr]
    rfl

theorem splitChar_append (sep : Char) (a b : List Char) (h : sep ∉ a) :
    splitChar sep (a ++ sep :: b) = a :: splitChar sep b := by
  induction a with
  | nil => simp [splitChar]
  | cons c rest ih =>
    have hc : c ≠ sep := fun e => h (e ▸ List.mem_cons_self c rest)
    have hr : sep ∉ rest := fun m => h (List.mem_cons_of_mem _ m)
    show splitChar sep (c :: (rest ++ sep :: b)) = (c :: rest) :: splitChar sep b
    simp only [splitChar, if_neg hc, ih hr]
    rfl

theorem splitChar_len2 (sep : Char) (l : List Char) (h : sep ∈ l) :
    2 ≤ (splitChar sep l).length := by
  induction l with
  | nil => cases h
  | cons c rest ih =>
    simp only [splitChar]
    by_cases hc : c = sep
    · rw [if_pos hc]
      have hp : 0 < (splitChar sep rest).length :=
        List.length_pos.mpr (splitChar_ne_nil sep rest)
      simp only [List.length_cons]
      omega
    · rw [if_neg hc]
      have hr : sep ∈ rest := by
        rcases List.mem_cons.mp h with e | m
        · exact absurd e.symm hc
        · exact m
      have h2 := ih hr
      simp only [List.length_cons, List.length_tail]
      omega

theorem splitChar_getLast (sep : Char) (a b : List Char) (h : sep ∉ b) :
    (splitChar sep (a ++ sep :: b)).getLast? = some b := by
  induction a with
  | nil =>
    rw [List.nil_append]
    simp [splitChar, splitChar_not_mem sep b h]
  | cons c rest ih =>
    rw [List.cons_append]
    simp only [splitChar]
    by_cases hc : c = sep
    · rw [if_pos hc]
      cases hsp : splitChar sep (rest ++ sep :: b) with
      | nil => exact absurd hsp (splitChar_ne_nil sep _)
      | cons y ys =>
        rw [hsp] at ih
        rw [List.getLast?_cons_cons]
        exact ih
    · rw [if_neg hc]
      have hlen : 2 ≤ (splitChar sep (rest ++ sep :: b)).length :=
        splitChar_len2 sep _ (by simp)
      cases hsp : splitChar sep (rest ++ sep :: b) with
      | nil => exact absurd hsp (splitChar_ne_nil sep _)
      | cons y ys =>
        rw [hsp] at ih hlen
        cases ys with
        | nil => simp at hlen
        | cons z zs =>
          rw [List.getLast?_cons_cons] at ih
          simp only [List.headD_cons, List.tail_cons]
          rw [List.getLast?_cons_cons]
          exact ih

theorem b64_index_char (i : Nat) (h : i < 64) : b64Index (b64Char i) = i := by
  revert i h
  decide

theorem b64_char_sane (i : Nat) (h : i < 64) :
    b64Char i ≠ '=' ∧ b64Char i ≠ ',' ∧ b64Char i ≠ ':' := by
  revert i h
  decide

theorem b64_roundtrip : ∀ bs : List Nat, (∀ b ∈ bs, b < 256) →
    b64Decode (b64Encode bs) = bs
  | [], _ => rfl
  | [b1], h => by
    have hb1 : b1 < 256 := h b1 (by simp)
    have e1 := b64_index_char (b1 / 4) (by omega)
    have e2 := b64_index_char (b1 % 4 * 16) (by omega)
    simp [b64Encode, b64Decode, e1, e2]; omega
  | [b1, b2], h => by
    have hb1 : b1 < 256 := h b1 (by simp)
    have hb2 : b2 < 256 := h b2 (by simp)
    have e1 := b64_index_char (b1 / 4) (by omega)
    have e2 := b64_index_char (b1 % 4 * 16 + b2 / 16) (by omega)
    have e3 := b64_index_char (b2 % 16 * 4) (by omega)
    have ne3 := (b64_char_sane (b2 % 16 * 4) (by omega)).1
    simp [b64Encode, b64Decode, if_neg ne3, e1, e2, e3]; omega
  | b1 :: b2 :: b3 :: rest, h => by
    have hb1 : b1 < 256 := h b1 (by simp)
    have hb2 : b2 < 256 := h b2 (by simp)
    have hb3 : b3 < 256 := h b3 (by simp)
    have e1 := b64_index_char (b1 / 4) (by omega)
    have e2 := b64_index_char (b1 % 4 * 16 + b2 / 16) (by omega)
    have e3 := b64_index_char (b2 % 16 * 4 + b3 / 64) (by omega)
    have e4 := b64_index_char (b3 % 64) (by omega)
    have ne3 := (b64_char_sane (b2 % 16 * 4 + b3 / 64) (by omega)).1
    have ne4 := (b64_char_sane (b3 % 64) (by omega)).1
    have ih := b64_roundtrip rest (fun b hb => h b (by simp [hb]))
    show b64Decode (b64Char (b1 / 4) :: b64Char (b1 % 4 * 16 + b2 / 16) ::
      b64Char (b2 % 16 * 4 + b3 / 64) :: b64Char (b3 % 64) :: b64Encode rest)
        = b1 :: b2 :: b3 :: rest
    simp [b64Decode, if_neg ne3, if_neg ne4, e1, e2, e3, e4, ih]; omega

theorem b64Encode_chars : ∀ bs : List Nat, (∀ b ∈ bs, b < 256) →
    ∀ c ∈ b64Encode bs, c ≠ ',' ∧ c ≠ ':'
  | [], _ => by simp [b64Encode]
  | [b1], h => by
    have hb1 : b1 < 256 := h b1 (by simp)
    have s1 := b64_char_sane (b1 / 4) (by omega)
    have s2 := b64_char_sane (b1 % 4 * 16) (by omega)
    intro c hc
    simp only [b64Encode, List.mem_cons, List.not_mem_nil, or_false] at hc
    rcases hc with rfl | rfl | rfl | rfl
    · exact ⟨s1.2.1, s1.2.2⟩
    · exact ⟨s2.2.1, s2.2.2⟩
    · exact ⟨by decide, by decide⟩
    · exact ⟨by decide, by decide⟩
  | [b1, b2], h => by
    have hb1 : b1 < 256 := h b1 (by simp)
    have hb2 : b2 < 256 := h b2 (by simp)
    have s1 := b64_char_sane (b1 / 4) (by omega)
    have s2 := b64_char_sane (b1 % 4 * 16 + b2 / 16) (by omega)
    have s3 := b64_char_sane (b2 % 16 * 4) (by omega)
    intro c hc
    simp only [b64Encode, List.mem_cons, List.not_mem_nil, or_false] at hc
    rcases hc with rfl | rfl | rfl | rfl
    · exact ⟨s1.2.1, s1.2.2⟩
    · exact ⟨s2.2.1, s2.2.2⟩
    · exact ⟨s3.2.1, s3.2.2⟩
    · exact ⟨by decide, by decide⟩
  | b1 :: b2 :: b3 :: rest, h => by
    have hb1 : b1 < 256 := h b1 (by simp)
    have hb2 : b2 < 256 := h b2 (by simp)
    have hb3 : b3 < 256 := h b3 (by simp)
    have s1 := b64_char_sane (b1 / 4) (by omega)
    have s2 := b64_char_sane (b1 % 4 * 16 + b2 / 16) (by omega)
    have s3 := b64_char_sane (b2 % 16 * 4 + b3 / 64) (by omega)
    have s4 := b64_char_sane (b3 % 64) (by omega)
    have ih := b64Encode_chars rest (fun b hb => h b (by simp [hb]))
    intro c hc
    rw [show b64Encode (b1 :: b2 :: b3 :: rest)
        = b64Char (b1 / 4) :: b64Char (b1 % 4 * 16 + b2 / 16) ::
          b64Char (b2 % 16 * 4 + b3 / 64) :: b64Char (b3 % 64) :: b64Encode rest
      from rfl] at hc
    simp only [List.mem_cons] at hc
    rcases hc with rfl | rfl | rfl | rfl | hc
    · exact ⟨s1.2.1, s1.2.2⟩
    · exact ⟨s2.2.1, s2.2.2⟩
    · exact ⟨s3.2.1, s3.2.2⟩
    · exact ⟨s4.2.1, s4.2.2⟩
    · exact ih c hc

theorem find?_head_filter {α : Type} (p : α → Bool) (l : List α) :
    List.find? p l = (l.filter p).head? := by
  induction l with
  | nil => rfl
  | cons x xs ih =>
    cases hx : p x with
    | true => rw [List.find?_cons_of_pos _ hx, List.filter_cons_of_pos hx, List.head?_cons]
    | false =>
      have hx2 : ¬ p x = true := by simp [hx]
      rw [List.find?_cons_of_neg _ hx2, List.filter_cons_of_neg hx2, ih]

theorem listSub_mem {α : Type} {a b : List α} (h : listSub a b) {x : α}
    (hx : x ∈ a) : x ∈ b := by
  obtain ⟨s, t, rfl⟩ := h
  simp [hx]

theorem listSub_ext_left {α : Type} {a b : List α} (c : List α)
    (h : listSub a b) : listSub a (c ++ b) := by
  obtain ⟨s, t, rfl⟩ := h
  exact ⟨c ++ s, t, by simp⟩

theorem listSub_ext_right {α : Type} {a b : List α} (c : List α)
    (h : listSub a b) : listSub a (b ++ c) := by
  obtain ⟨s, t, rfl⟩ := h
  exact ⟨s, t ++ c, by simp⟩

theorem listSub_self {α : Type} (a : List α) : listSub a a := ⟨[], [], by simp⟩

theorem listSub_join (s : String) (ss : List String) (h : s ∈ ss) :
    listSub s.data (joinCommaSpace ss).data := by
  induction ss with
  | nil => cases h
  | cons x rest ih =>
    cases rest with
    | nil =>
      rcases List.mem_cons.mp h with rfl | hm
      · exact listSub_self s.data
      · cases hm
    | cons y ys =>
      have hjoin : joinCommaSpace (x :: y :: ys) = x ++ ", " ++ joinCommaSpace (y :: ys) :=
        rfl
      rcases List.mem_cons.mp h with rfl | hm
      · rw [hjoin, String.data_append, String.data_append]
        exact listSub_ext_right _ (listSub_ext_right _ (listSub_self s.data))
      · rw [hjoin, String.data_append, String.data_append, List.append_assoc]
        exact listSub_ext_left _ (listSub_ext_left _ (ih hm))

theorem filterIdxNe_map {α β : Type} (u : α → β) (i : Nat) :
    ∀ (j : Nat) (l : List α),
      filterIdxNe i j (l.map u) = (filterIdxNe i j l).map u := by
  intro j l
  induction l generalizing j with
  | nil => rfl
  | cons x xs ih =>
    simp only [List.map_cons, filterIdxNe]
    by_cases hj : j = i
    · simp [hj, ih]
    · simp [hj, ih]

theorem getMimeType_ne_empty (n m : String) (h : getMimeType n = some m) :
    m ≠ "" := by
  unfold getMimeType at h
  split at h
  · cases h
  · unfold mimeSwitch at h
    split_ifs at h
    all_goals cases h
    all_goals decide

theorem encodeAll_error_of_bad (f : FileRec) (after : List FileRec)
    (hext : getMimeType f.name = none) (htype : f.type = "") :
    ∀ bs : List FileRec,
      (∀ g ∈ bs, ∃ m, resolveMime g.name g.type = Except.ok m) →
      encodeAll (bs ++ f :: after)
        = Except.error ("Could not determine image MIME type for " ++ f.name ++ ".") := by
  have hencf : encodeFile f
      = Except.error ("Could not determine image MIME type for " ++ f.name ++ ".") := by
    unfold encodeFile resolveMime
    rw [hext, htype]
    simp
  intro bs
  induction bs with
  | nil =>
    intro _
    simp only [List.nil_append, encodeAll, hencf]
  | cons g gs ih =>
    intro hbs
    obtain ⟨m, hm⟩ := hbs g (List.mem_cons_self g gs)
    have hg : encodeFile g = Except.ok ⟨⟨fileToBase64 g.type.data g.content⟩, m⟩ := by
      unfold encodeFile
      rw [hm]
    have hrest := ih (fun x hx => hbs x (List.mem_cons_of_mem _ hx))
    rw [List.cons_append]
    simp only [encodeAll, hg]
    rw [hrest]

/- ------------------------------------------------------------------ -/
/- Claim theorems.                                                     -/
/- ------------------------------------------------------------------ -/

/-- Claim C5, counterexample: the claim says a filename with no extension
at all (no dot) yields `none`, but `getMimeType` applied to the dot-free
filename `"jpg"` returns `some "image/jpeg"`, because
`"jpg".split('.').pop()` is the whole filename. -/
theorem c5_counterexample :
    getMimeType "jpg" = some "image/jpeg" ∧ '.' ∉ "jpg".data := by
  constructor
  · rfl
  · decide

/-- Claim C5 (amended): for a filename containing a dot, `getMimeType`
switches on the lower-cased segment after the last dot (`jpg`/`jpeg` to
`image/jpeg`, `png` to `image/png`, `webp` to `image/webp`, anything else
to `none`); for a filename containing no dot, the entire lower-cased
filename is matched against that same table instead of returning `none`. -/
theorem c5_amended_extension_switch (a b l : List Char)
    (hb : '.' ∉ b) (hl : '.' ∉ l) :
    getMimeType ⟨a ++ '.' :: b⟩ = mimeSwitch (b.map Char.toLower) ∧
    getMimeType ⟨l⟩ = mimeSwitch (l.map Char.toLower) := by
  constructor
  · unfold getMimeType
    rw [show (String.mk (a ++ '.' :: b)).data = a ++ '.' :: b from rfl]
    rw [splitChar_getLast '.' a b hb]
  · unfold getMimeType
    rw [show (String.mk l).data = l from rfl]
    rw [splitChar_not_mem '.' l hl]
    rfl

/-- Claim C5 witness: the amended theorem applied to the concrete
filename `photo.JPG` (and the dot-free name `webp`). -/
theorem c5_witness :
    getMimeType ⟨"photo".data ++ '.' :: "JPG".data⟩
        = mimeSwitch ("JPG".data.map Char.toLower) ∧
    getMimeType ⟨"webp".data⟩ = mimeSwitch ("webp".data.map Char.toLower) :=
  c5_amended_extension_switch "photo".data "JPG".data "webp".data
    (by decide) (by decide)

/-- Claim C6: for every file, the string produced by `fileToBase64` is
exactly the base64 encoding of the raw bytes — it contains no comma and
no `data:` prefix (the data-URL scheme/media-type prefix and comma
separator are stripped), and base64-decoding it reproduces exactly the
original bytes.  The MIME type of the file may not contain a comma (true
of every MIME type a browser supplies). -/
theorem c6_fileToBase64_strips_and_roundtrips (mime : List Char)
    (bytes : List Nat) (hm : ',' ∉ mime) (hb : ∀ b ∈ bytes, b < 256) :
    fileToBase64 mime bytes = b64Encode bytes ∧
    ',' ∉ fileToBase64 mime bytes ∧
    ¬ listSub "data:".data (fileToBase64 mime bytes) ∧
    b64Decode (fileToBase64 mime bytes) = bytes := by
  have hchars := b64Encode_chars bytes hb
  have hnc : ',' ∉ b64Encode bytes := fun hmem => (hchars ',' hmem).1 rfl
  have hA : ',' ∉ "data:".data ++ mime ++ ";base64".data := by
    intro hmem
    rcases List.mem_append.mp hmem with hmem | hmem
    · rcases List.mem_append.mp hmem with hmem | hmem
      · exact absurd hmem (by decide)
      · exact hm hmem
    · exact absurd hmem (by decide)
  have hshape : dataURL mime bytes
      = ("data:".data ++ mime ++ ";base64".data) ++ ',' :: b64Encode bytes := by
    simp [dataURL, List.append_assoc]
  have hsplit : splitChar ',' (dataURL mime bytes)
      = ("data:".data ++ mime ++ ";base64".data) :: [b64Encode bytes] := by
    rw [hshape, splitChar_append ',' _ _ hA, splitChar_not_mem ',' _ hnc]
  have heq : fileToBase64 mime bytes = b64Encode bytes := by
    unfold fileToBase64
    rw [hsplit]
    rfl
  refine ⟨heq, ?_, ?_, ?_⟩
  · rw [heq]; exact hnc
  · rw [heq]
    intro hsub
    have : ':' ∈ b64Encode bytes := listSub_mem hsub (by decide)
    exact (hchars ':' this).2 rfl
  · rw [heq]
    exact b64_roundtrip bytes hb

/-- Claim C6 witness: the theorem applied to a concrete PNG file of four
bytes. -/
theorem c6_witness :
    fileToBase64 "image/png".data [0, 100, 255, 7]
        = b64Encode [0, 100, 255, 7] ∧
    ',' ∉ fileToBase64 "image/png".data [0, 100, 255, 7] ∧
    ¬ listSub "data:".data (fileToBase64 "image/png".data [0, 100, 255, 7]) ∧
    b64Decode (fileToBase64 "image/png".data [0, 100, 255, 7])
        = [0, 100, 255, 7] :=
  c6_fileToBase64_strips_and_roundtrips "image/png".data [0, 100, 255, 7]
    (by decide) (by decide)

/-- Claim C2: every failure of the remote call is re-raised as the single
uniform wrapping error `Failed to generate image: <original message>`,
which contains the original message as a substring; the caller never sees
the raw exception. -/
theorem c2_remote_failure_wrapped (prompt : String) (images : List ImageData)
    (remote : GenRequest → Except String GenResponse) (e : String)
    (h : remote (buildRequest prompt images) = Except.error e) :
    editImageWithGemini prompt images remote
        = Except.error ("Failed to generate image: " ++ e) ∧
    listSub e.data ("Failed to generate image: " ++ e).data := by
  constructor
  · simp [editImageWithGemini, h]
  · rw [String.data_append]
    exact ⟨"Failed to generate image: ".data, [], by simp⟩

/-- Claim C2 witness: a remote call that throws with message `timeout`
surfaces the wrapping error whose message contains `timeout`. -/
theorem c2_witness :
    editImageWithGemini "p" [] (fun _ => Except.error "timeout")
        = Except.error ("Failed to generate image: " ++ "timeout") ∧
    listSub "timeout".data ("Failed to generate image: " ++ "timeout").data :=
  c2_remote_failure_wrapped "p" [] (fun _ => Except.error "timeout") "timeout" rfl

/-- Claim C3: when the remote response's first candidate's content parts
contain exactly one inline-image part, `editImageWithGemini` returns
exactly that part's data, unmodified. -/
theorem c3_single_inline_part (prompt : String) (images : List ImageData)
    (remote : GenRequest → Except String GenResponse) (resp : GenResponse)
    (cand : Candidate) (con : Content) (parts : List RespPart)
    (p : RespPart) (d : ImageData)
    (hrem : remote (buildRequest prompt images) = Except.ok resp)
    (hcand : firstCandidate resp = some cand)
    (hcon : cand.content = some con)
    (hparts : con.parts = some parts)
    (hone : parts.filter (fun q => q.inlineData.isSome) = [p])
    (hd : p.inlineData = some d) :
    editImageWithGemini prompt images remote = Except.ok d.data := by
  have hfind : List.find? (fun q => q.inlineData.isSome) parts = some p := by
    rw [find?_head_filter, hone]
    rfl
  simp [editImageWithGemini, hrem, findImagePart, hcand, hcon, hparts, hfind, hd]

/-- Claim C3 witness: the theorem at a concrete response holding exactly
one inline-image part with payload `IMGDATA`. -/
theorem c3_witness :
    editImageWithGemini "p" [] (fun _ => Except.ok respWithImage)
        = Except.ok exImage.data :=
  c3_single_inline_part "p" [] (fun _ => Except.ok respWithImage)
    respWithImage ⟨some ⟨some [⟨some exImage, none⟩]⟩, none⟩
    ⟨some [⟨some exImage, none⟩]⟩ [⟨some exImage, none⟩]
    ⟨some exImage, none⟩ exImage rfl rfl rfl rfl rfl rfl

/-- Claim C4: when the response has zero inline-image parts, the failure
message is built starting from the generic `No image was generated.` text
and, when safety ratings are present, appends every `category
(probability)` pair joined by commas; the error surfaced by
`editImageWithGemini` contains the generic text and each pair as
substrings. -/
theorem c4_no_image_safety_message (prompt : String) (images : List ImageData)
    (remote : GenRequest → Except String GenResponse) (resp : GenResponse)
    (cand : Candidate) (con : Content) (parts : List RespPart)
    (rs : List SafetyRating)
    (hrem : remote (buildRequest prompt images) = Except.ok resp)
    (hcand : firstCandidate resp = some cand)
    (hcon : cand.content = some con)
    (hparts : con.parts = some parts)
    (hzero : ∀ q ∈ parts, q.inlineData = none)
    (hsafe : cand.safetyRatings = some rs) :
    editImageWithGemini prompt images remote
        = Except.error ("Failed to generate image: " ++ noImageMessage resp) ∧
    noImageMessage resp
        = "No image was generated." ++ " The model's response may have been blocked due to: "
          ++ joinCommaSpace (rs.map ratingStr) ∧
    listPre "No image was generated.".data (noImageMessage resp).data ∧
    ∀ s ∈ rs, listSub (ratingStr s).data
      ("Failed to generate image: " ++ noImageMessage resp).data := by
  have hfind : List.find? (fun q => q.inlineData.isSome) parts = none := by
    rw [List.find?_eq_none]
    intro q hq
    simp [hzero q hq]
  have hmsg : noImageMessage resp
      = "No image was generated." ++ " The model's response may have been blocked due to: "
        ++ joinCommaSpace (rs.map ratingStr) := by
    unfold noImageMessage
    rw [hcand]
    simp [hsafe]
  refine ⟨?_, hmsg, ?_, ?_⟩
  · simp [editImageWithGemini, hrem, findImagePart, hcand, hcon, hparts, hfind]
  · rw [hmsg, String.data_append, String.data_append, List.append_assoc]
    exact ⟨_, rfl⟩
  · intro s hs
    rw [hmsg, String.data_append, String.data_append, String.data_append]
    have hj : listSub (ratingStr s).data (joinCommaSpace (rs.map ratingStr)).data :=
      listSub_join (ratingStr s) (rs.map ratingStr) (List.mem_map_of_mem ratingStr hs)
    simp only [List.append_assoc]
    exact listSub_ext_left _ (listSub_ext_left _ (listSub_ext_left _ hj))

/-- Claim C4 witness: at a concrete blocked response with safety ratings
`[{category: VIOLENCE, probability: LOW}]`, the error message contains
`No image was generated` and `VIOLENCE (LOW)`. -/
theorem c4_witness :
    editImageWithGemini "p" [] (fun _ => Except.ok respBlocked)
        = Except.error ("Failed to generate image: " ++ noImageMessage respBlocked) ∧
    noImageMessage respBlocked
        = "No image was generated." ++ " The model's response may have been blocked due to: "
          ++ joinCommaSpace ([⟨"VIOLENCE", "LOW"⟩].map ratingStr) ∧
    listPre "No image was generated.".data (noImageMessage respBlocked).data ∧
    ∀ s ∈ [(⟨"VIOLENCE", "LOW"⟩ : SafetyRating)], listSub (ratingStr s).data
      ("Failed to generate image: " ++ noImageMessage respBlocked).data :=
  c4_no_image_safety_message "p" [] (fun _ => Except.ok respBlocked)
    respBlocked ⟨some ⟨some []⟩, some [⟨"VIOLENCE", "LOW"⟩]⟩ ⟨some []⟩ []
    [⟨"VIOLENCE", "LOW"⟩] rfl rfl rfl rfl (by simp) rfl

/-- Claim C7: the request consists of one inline-image part per supplied
image, in the supplied order, followed by exactly one final text part;
the text part is the fixed face-preservation wrapper and the literal user
prompt appears verbatim inside it. -/
theorem c7_request_shape (prompt : String) (images : List ImageData) :
    ((buildRequest prompt images).parts).take images.length
        = images.map (fun image => ReqPart.inl image.data image.mimeType) ∧
    ((buildRequest prompt images).parts).drop images.length
        = [ReqPart.txt (fullPrompt prompt)] ∧
    (buildRequest prompt images).parts.length = images.length + 1 ∧
    listSub prompt.data (fullPrompt prompt).data := by
  refine ⟨?_, ?_, ?_, ?_⟩
  · show (images.map (fun image => ReqPart.inl image.data image.mimeType)
        ++ [ReqPart.txt (fullPrompt prompt)]).take images.length = _
    rw [← List.length_map images (fun image => ReqPart.inl image.data image.mimeType)]
    exact List.take_left _ _
  · show (images.map (fun image => ReqPart.inl image.data image.mimeType)
        ++ [ReqPart.txt (fullPrompt prompt)]).drop images.length = _
    rw [← List.length_map images (fun image => ReqPart.inl image.data image.mimeType)]
    exact List.drop_left _ _
  · simp [buildRequest]
  · rw [show fullPrompt prompt
        = "You are an expert photo editor. Your task is to take the provided images of people and place them into a new scene described by the user. It is absolutely crucial that you preserve the faces of the individuals from the original photos. Do not alter their facial features, expressions, or identities in any way. The faces in the generated image must look exactly like the faces in the uploaded photos. Here is the user's request for the scene: '"
          ++ prompt ++ "'" from rfl]
    rw [String.data_append, String.data_append]
    exact ⟨_, _, rfl⟩

/-- Claim C10: every error `editImageWithGemini` surfaces to its caller
carries the uniform prefix `Failed to generate image: ` — in particular
the internally raised no-image error is caught by the function's own
catch block and re-wrapped. -/
theorem c10_uniform_error_wrapping (prompt : String) (images : List ImageData)
    (remote : GenRequest → Except String GenResponse) (msg : String)
    (h : editImageWithGemini prompt images remote = Except.error msg) :
    listPre "Failed to generate image: ".data msg.data := by
  cases hrem : remote (buildRequest prompt images) with
  | error e =>
    have hval : editImageWithGemini prompt images remote
        = Except.error ("Failed to generate image: " ++ e) := by
      simp [editImageWithGemini, hrem]
    rw [hval] at h
    simp only [Except.error.injEq] at h
    exact ⟨e.data, by rw [← h, String.data_append]⟩
  | ok resp =>
    cases hfind : (findImagePart resp).bind RespPart.inlineData with
    | some d =>
      have hval : editImageWithGemini prompt images remote = Except.ok d.data := by
        simp [editImageWithGemini, hrem, hfind]
      rw [hval] at h
      cases h
    | none =>
      have hval : editImageWithGemini prompt images remote
          = Except.error ("Failed to generate image: " ++ noImageMessage resp) := by
        simp [editImageWithGemini, hrem, hfind]
      rw [hval] at h
      simp only [Except.error.injEq] at h
      exact ⟨(noImageMessage resp).data, by rw [← h, String.data_append]⟩

/-- Claim C10 witness: the theorem at a concrete response with no
candidates, whose internally raised no-image error surfaces re-wrapped. -/
theorem c10_witness :
    listPre "Failed to generate image: ".data
      ("Failed to generate image: No image was generated.").data :=
  c10_uniform_error_wrapping "p" [] (fun _ => Except.ok ⟨none⟩)
    "Failed to generate image: No image was generated." rfl

/-- Claim C1: submitting with an empty image list fails the caller-side
validation — `handleSubmit` produces the validation error and never
consults the remote call (the result is the same for every `remote`). -/
theorem c1_empty_images_rejected (prompt : String)
    (remote : GenRequest → Except String GenResponse) :
    handleSubmit [] prompt remote
        = SubmitOutcome.validationError
            "Please select at least one image and enter a prompt." := by
  simp [handleSubmit]

/-- Claim C8: the media type of each file is resolved by an ordered
fallback — for a file whose extension is recognised (`n1`) the
extension-detection result is used, even over a present browser type;
for a file whose extension is not recognised (`n2`) the file object's
own non-empty `type` is used; and when both are absent for a file (`f`),
the whole submission fails, for every possible remote (hence before any
remote call), with an error message naming the offending filename. -/
theorem c8_mime_fallback_and_failure (before after : List FileRec)
    (f : FileRec) (prompt n1 t1 m1 n2 t2 : String)
    (hprompt : prompt ≠ "")
    (hbefore : ∀ g ∈ before, ∃ mg, resolveMime g.name g.type = Except.ok mg)
    (hext : getMimeType f.name = none) (htype : f.type = "")
    (hknown : getMimeType n1 = some m1)
    (hunknown : getMimeType n2 = none) (ht2 : t2 ≠ "") :
    resolveMime n1 t1 = Except.ok m1 ∧
    resolveMime n2 t2 = Except.ok t2 ∧
    (∀ remote, handleSubmit (before ++ f :: after) prompt remote
        = SubmitOutcome.failure
            ("Could not determine image MIME type for " ++ f.name ++ ".")) ∧
    listSub f.name.data
      ("Could not determine image MIME type for " ++ f.name ++ ".").data := by
  refine ⟨?_, ?_, ?_, ?_⟩
  · unfold resolveMime
    rw [hknown]
    simp [getMimeType_ne_empty n1 m1 hknown]
  · unfold resolveMime
    rw [hunknown]
    simp [ht2]
  · intro remote
    have henc := encodeAll_error_of_bad f after hext htype before hbefore
    have hlen : (before ++ f :: after).length ≠ 0 := by simp
    unfold handleSubmit
    rw [if_neg (by simp [hlen, hprompt])]
    rw [henc]
  · rw [String.data_append, String.data_append, List.append_assoc]
    exact listSub_ext_left _ (listSub_ext_right _ (listSub_self f.name.data))

/-- Claim C8 witness: the extension result wins for `a.png` even though
the browser says `text/plain`; the unrecognised extension of `shot.raw`
falls back to the browser-supplied `image/x-canon`; and a file named
`mystery` with neither makes the whole submission fail naming
`mystery`. -/
theorem c8_witness :
    resolveMime "a.png" "text/plain" = Except.ok "image/png" ∧
    resolveMime "shot.raw" "image/x-canon" = Except.ok "image/x-canon" ∧
    handleSubmit [⟨"mystery", "", []⟩] "p" remoteDown
        = SubmitOutcome.failure
            ("Could not determine image MIME type for " ++ "mystery" ++ ".") ∧
    listSub "mystery".data
      ("Could not determine image MIME type for " ++ "mystery" ++ ".").data := by
  have h := c8_mime_fallback_and_failure [] [] ⟨"mystery", "", []⟩ "p"
    "a.png" "text/plain" "image/png" "shot.raw" "image/x-canon"
    (by decide) (by simp) rfl rfl rfl rfl (by decide)
  exact ⟨h.1, h.2.1, h.2.2.1 remoteDown, h.2.2.2⟩

/-- Claim C9: the invariant that the preview-URL list is exactly the
object URL of each selected file at the same index (so the two lists have
equal length) holds in the initial state and is preserved by adding
files, removing a file by index, and resetting. -/
theorem c9_session_invariant {F U : Type} (u : F → U) (isImage : F → Bool)
    (st : Session F U) (incoming : List F) (i : Nat)
    (h : sessionInv u st) :
    sessionInv u (initialSession : Session F U) ∧
    sessionInv u (handleFiles u isImage st incoming) ∧
    sessionInv u (handleRemoveImage st i) ∧
    sessionInv u (clearState : Session F U) ∧
    (handleFiles u isImage st incoming).files.length
        = (handleFiles u isImage st incoming).urls.length ∧
    (handleRemoveImage st i).files.length
        = (handleRemoveImage st i).urls.length := by
  have hadd : sessionInv u (handleFiles u isImage st incoming) := by
    unfold handleFiles
    by_cases he : (incoming.filter isImage).isEmpty
    · simpa [he] using h
    · simp only [he, if_neg, Bool.false_eq_true, not_false_eq_true]
      unfold sessionInv at h ⊢
      simp [h]
  have hrem : sessionInv u (handleRemoveImage st i) := by
    unfold handleRemoveImage sessionInv
    unfold sessionInv at h
    simp only [h, filterIdxNe_map]
  refine ⟨rfl, hadd, hrem, rfl, ?_, ?_⟩
  · unfold sessionInv at hadd
    rw [hadd, List.length_map]
  · unfold sessionInv at hrem
    rw [hrem, List.length_map]

/-- Claim C9 witness: the invariant theorem at a concrete session holding
one file, adding one file, and removing index zero. -/
theorem c9_witness :
    sessionInv Nat.succ (initialSession : Session Nat Nat) ∧
    sessionInv Nat.succ (handleFiles Nat.succ (fun _ => true) ⟨[3], [4]⟩ [7]) ∧
    sessionInv Nat.succ (handleRemoveImage (⟨[3], [4]⟩ : Session Nat Nat) 0) ∧
    sessionInv Nat.succ (clearState : Session Nat Nat) ∧
    (handleFiles Nat.succ (fun _ => true) ⟨[3], [4]⟩ [7]).files.length
        = (handleFiles Nat.succ (fun _ => true) ⟨[3], [4]⟩ [7]).urls.length ∧
    (handleRemoveImage (⟨[3], [4]⟩ : Session Nat Nat) 0).files.length
        = (handleRemoveImage (⟨[3], [4]⟩ : Session Nat Nat) 0).urls.length :=
  c9_session_invariant Nat.succ (fun _ => true) ⟨[3], [4]⟩ [7] 0 rfl

end GIF
